import Mathlib

/-
  Verification of the ModelVerse chat client.

  This file gives a shallow embedding, in Lean 4, of the request-shaping and
  chat-state logic of the ModelVerse repository:

  * `relayUserPromptFlow` (src/ai/flows/relay-user-prompt.ts): the prompt
    normalizer that turns `(prompt?, model, photoDataUri?, history?)` into
    either a canned textual response (returned without any provider call) or
    a single provider generation call descriptor.
  * `ChatInterface` (src/components/chat/ChatInterface.tsx): the message-log
    operations — history building, sampling-config forwarding, JSON
    export/import of the log, and edit-and-resend.

  JavaScript conventions are modelled explicitly: an optional string field is
  `Option String`, and JS truthiness of a (possibly undefined) string is
  `strTruthy` (`undefined` and `""` are falsy).  Provider calls are modelled
  by the `FlowResult.call` constructor carrying the `GenerateOptions` record;
  an early `return` of a canned response is `FlowResult.canned`, which by
  construction performs no provider call.
-/

namespace ModelVerse

/-! ## Basic data model -/

/-- The sender of a chat message in the UI message log (`Message.sender`). -/
inductive Sender where
  | user
  | ai
  | system
deriving DecidableEq, Repr

/-- The role of a conversation turn sent to the provider (`ChatTurnSchema.role`). -/
inductive Role where
  | user
  | model
deriving DecidableEq, Repr

/-- A content part of a provider message: `{text}` or `{media:{url}}` (genkit `Part`). -/
inductive Part where
  | text (t : String)
  | media (url : String)
deriving DecidableEq, Repr

/-- A provider history message: `{role, content}` (genkit `MessageData`). -/
structure MessageData where
  role : Role
  content : List Part
deriving DecidableEq, Repr

/-- One wire-form conversation turn (`ChatTurnSchema`): role plus optional
text and optional photo data URI. -/
structure ChatTurn where
  role : Role
  text : Option String := none
  photoDataUri : Option String := none
deriving DecidableEq, Repr

/-- The input of the relay flow (`RelayUserPromptInputSchema`). -/
structure RelayUserPromptInput where
  prompt : Option String := none
  model : String
  photoDataUri : Option String := none
  history : Option (List ChatTurn) := none
deriving DecidableEq, Repr

/-- Sampling configuration (`ModelConfigState` in ChatInterface.tsx and the
flow's `ModelConfig`): each field independently optional.  The numeric values
are forwarded opaquely, so we carry them as rationals. -/
structure ModelConfigState where
  maxOutputTokens : Option ℚ := none
  temperature : Option ℚ := none
  topP : Option ℚ := none
  topK : Option ℚ := none
deriving DecidableEq, Repr

/-- The provider generation call descriptor (`GenerateOptions`): the model
identifier, the current turn's parts, the optional `messages` history field
(omitted — `none` — when the normalized history is empty), and the optional
sampling `config` field. -/
structure GenerateOptions where
  model : String
  prompt : List Part
  messages : Option (List MessageData) := none
  config : Option ModelConfigState := none
deriving DecidableEq, Repr

/-- The observable outcome of `relayUserPromptFlow`: either an early canned
response (no provider call is made) or a single provider generation call. -/
inductive FlowResult where
  | canned (response : String)
  | call (options : GenerateOptions)
deriving DecidableEq, Repr

/-! ## JavaScript string truthiness -/

/-- JS truthiness of a possibly-undefined string: `undefined` and `""` are
falsy, every other string is truthy. -/
def strTruthy : Option String → Bool
  | none => false
  | some s => s ≠ ""

/-- JS `String.prototype.trim`: strip leading and trailing whitespace.  Defined
over the character list so that it reduces in the kernel (the library's
`String.trim` uses well-founded recursion and does not). -/
def jsTrim (s : String) : String :=
  String.mk (((s.data.dropWhile Char.isWhitespace).reverse.dropWhile Char.isWhitespace).reverse)

/-! ## The relay flow (src/ai/flows/relay-user-prompt.ts, newest version)

Embeds `relayUserPromptFlow` with its `TEXT_ONLY_MODELS` allow-list. -/

/-- The fixed text-only model allow-list (`TEXT_ONLY_MODELS`). -/
def TEXT_ONLY_MODELS : List String :=
  ["openai/gpt-3.5-turbo", "openai/grok-3", "anthropic/claude-3-haiku-20240307"]

/-- `TEXT_ONLY_MODELS.includes(model)`. -/
def isTextOnlyModel (model : String) : Bool :=
  TEXT_ONLY_MODELS.contains model

/-- The canned refusal returned when a text-only model receives an image with
no text. -/
def imageRefusalResponse : String :=
  "The selected model does not support images. Please provide a text prompt or select a different model."

/-- The canned response returned when, after normalization, both the current
turn and the history are empty. -/
def emptyPromptResponse : String :=
  "Please provide a prompt."

/-- `currentPromptText?.trim()`. -/
def trimmedPrompt (input : RelayUserPromptInput) : Option String :=
  input.prompt.map jsTrim

/-- The photo retained for the current prompt after text-only filtering
(`finalPhotoDataUriForCurrentPrompt` after the stripping block): the image is
dropped when the model is text-only, the image is truthy, and trimmed text is
truthy; in the remaining truthy-image text-only case the flow short-circuits
with the refusal before this value is consulted. -/
def finalPhotoDataUri (input : RelayUserPromptInput) : Option String :=
  if isTextOnlyModel input.model && strTruthy input.photoDataUri
      && strTruthy (trimmedPrompt input) then
    none
  else
    input.photoDataUri

/-- The content parts of one history turn (`historicalTurnContentParts`):
the trimmed text when `turn.text && turn.text.trim() !== ""`, then the media
part when `turn.photoDataUri && !isTextOnlyModel`. -/
def historicalTurnParts (textOnly : Bool) (turn : ChatTurn) : List Part :=
  (match turn.text with
    | some t => if t ≠ "" && jsTrim t ≠ "" then [Part.text (jsTrim t)] else []
    | none => []) ++
  (match turn.photoDataUri with
    | some p => if p ≠ "" && !textOnly then [Part.media p] else []
    | none => [])

/-- One history turn normalized to an optional provider message: the turn is
kept only if its content part list is non-empty. -/
def normalizeHistoryTurn (textOnly : Bool) (turn : ChatTurn) : Option MessageData :=
  if (historicalTurnParts textOnly turn).isEmpty then none
  else some { role := turn.role, content := historicalTurnParts textOnly turn }

/-- The normalized history (`pastMessagesForAI`): each turn contributes its
normalized message when it has content, in order. -/
def pastMessagesForAI (textOnly : Bool) : Option (List ChatTurn) → List MessageData
  | none => []
  | some turns => turns.filterMap (normalizeHistoryTurn textOnly)

/-- `effectiveCurrentPromptText`: the trimmed text when truthy, otherwise the
literal `"Describe this image."` when the retained photo is truthy, otherwise
the empty string. -/
def effectiveCurrentPromptText (trimmed finalPhoto : Option String) : String :=
  match trimmed with
  | some t => if t ≠ "" then t else (if strTruthy finalPhoto then "Describe this image." else "")
  | none => if strTruthy finalPhoto then "Describe this image." else ""

/-- `currentPromptPartsForAI`: the effective text part when non-empty, then
the media part for the retained photo when truthy. -/
def currentPromptPartsForAI (trimmed finalPhoto : Option String) : List Part :=
  (if effectiveCurrentPromptText trimmed finalPhoto ≠ "" then
    [Part.text (effectiveCurrentPromptText trimmed finalPhoto)]
  else []) ++
  (match finalPhoto with
    | some p => if p ≠ "" then [Part.media p] else []
    | none => [])

/-- The normalized current-turn part list built by the flow. -/
def normalizedCurrentParts (input : RelayUserPromptInput) : List Part :=
  currentPromptPartsForAI (trimmedPrompt input) (finalPhotoDataUri input)

/-- The normalized history built by the flow. -/
def normalizedHistory (input : RelayUserPromptInput) : List MessageData :=
  pastMessagesForAI (isTextOnlyModel input.model) input.history

/-- The relay flow `relayUserPromptFlow`:
1. text-only model with a truthy image and falsy trimmed text returns the
   image refusal without calling the provider;
2. otherwise the history and current-turn parts are normalized; if both are
   empty the empty-prompt canned response is returned without calling the
   provider;
3. otherwise a single provider call is issued with the current parts as
   `prompt` and, when non-empty, the normalized history as `messages`. -/
def relayUserPromptFlow (input : RelayUserPromptInput) : FlowResult :=
  if isTextOnlyModel input.model && strTruthy input.photoDataUri
      && !strTruthy (trimmedPrompt input) then
    FlowResult.canned imageRefusalResponse
  else if (normalizedCurrentParts input).isEmpty && (normalizedHistory input).isEmpty then
    FlowResult.canned emptyPromptResponse
  else
    FlowResult.call
      { model := input.model
        prompt := normalizedCurrentParts input
        messages := if (normalizedHistory input).isEmpty then none
                    else some (normalizedHistory input)
        config := none }

/-! ## Chat state (src/components/chat/ChatInterface.tsx, newest version)

The UI message log and its operations: history building, sampling-config
forwarding, JSON export/import, and edit-and-resend. -/

/-- A UI chat message (`interface Message`). -/
structure Message where
  id : String
  sender : Sender
  text : String
  imageUrl : Option String := none
deriving DecidableEq, Repr

/-- `initialSystemMessage`. -/
def initialSystemMessage : String :=
  "Welcome to ModelVerse! Select a model, type a message, or upload an image to start chatting."

/-- `clearedSystemMessage`. -/
def clearedSystemMessage : String :=
  "Chat cleared. Select a model and send a message to start a new conversation."

/-- `loadedSystemMessage`. -/
def loadedSystemMessage : String :=
  "Chat history loaded. Continue the conversation or start a new one."

/-! ### Sampling-config forwarding (`handleSendMessage`, flowConfig block) -/

/-- The `flowConfig` object built in `handleSendMessage`: each of the four
fields is copied exactly when it is set (`!== undefined`), and omitted
otherwise. -/
def buildFlowConfig (mc : ModelConfigState) : ModelConfigState :=
  { maxOutputTokens := if mc.maxOutputTokens.isSome then mc.maxOutputTokens else none
    temperature := if mc.temperature.isSome then mc.temperature else none
    topP := if mc.topP.isSome then mc.topP else none
    topK := if mc.topK.isSome then mc.topK else none }

/-- `Object.keys(flowConfig).length > 0`: some sampling field is set. -/
def configHasKeys (c : ModelConfigState) : Bool :=
  c.maxOutputTokens.isSome || c.temperature.isSome || c.topP.isSome || c.topK.isSome

/-- The `modelConfig` value placed on the flow input:
`Object.keys(flowConfig).length > 0 ? flowConfig : undefined`. -/
def modelConfigForInput (mc : ModelConfigState) : Option ModelConfigState :=
  let fc := buildFlowConfig mc
  if configHasKeys fc then some fc else none

/-- Modelled from the spec: the relay-flow revision that accepts the optional
`modelConfig` input field (ChatInterface.tsx imports its `ModelConfig` type
and forwards `modelConfig` on the flow input, but no flow revision among the
source files declares that field or attaches a `config` to the generation
call).  Per the spec — "Attach sampling config fields only where explicitly
set (omit undefined keys entirely rather than passing nulls)" — the provider
call options carry the forwarded config object exactly when one was provided,
unchanged; an absent config leaves the `config` key omitted. -/
def attachModelConfig (opts : GenerateOptions) (mc : Option ModelConfigState) : GenerateOptions :=
  match mc with
  | none => opts
  | some c => { opts with config := some c }

/-- The sampling field a provider call actually receives: `none` when the
`config` key or the field inside it is omitted. -/
def sentConfigField (opts : GenerateOptions) (field : ModelConfigState → Option ℚ) : Option ℚ :=
  opts.config.bind field

/-! ### History building from the message log (`handleSendMessage`) -/

/-- The wire turn derived from one log message. -/
def toChatTurn (m : Message) : ChatTurn :=
  { role := match m.sender with | Sender.user => Role.user | _ => Role.model
    text := if jsTrim m.text = "" && strTruthy m.imageUrl then none else some (jsTrim m.text)
    photoDataUri := m.imageUrl }

/-- The history sent to the flow: non-system messages, mapped to wire turns,
keeping only turns with truthy text or photo. -/
def historyFromMessages (ms : List Message) : List ChatTurn :=
  ((ms.filter (fun m =>
      match m.sender with
      | Sender.user => true
      | Sender.ai => true
      | Sender.system => false)).map toChatTurn).filter
    (fun t => strTruthy t.text || strTruthy t.photoDataUri)

/-! ### JSON export/import of the message log

`handleDownloadChat` writes `JSON.stringify(messages)`; `handleFileUpload`
reads a file back through `JSON.parse` and validates the shape.  Since
`JSON.parse` inverts `JSON.stringify` on these values, the serialize–parse
round trip is modelled at the level of JSON values. -/

/-- A JSON value as produced by `JSON.parse`. -/
inductive Json where
  | null
  | bool (b : Bool)
  | num (n : ℚ)
  | str (s : String)
  | arr (elems : List Json)
  | obj (fields : List (String × Json))
deriving Repr

/-- `senderToString`: how `JSON.stringify` writes the `sender` field. -/
def senderToString : Sender → String
  | Sender.user => "user"
  | Sender.ai => "ai"
  | Sender.system => "system"

/-- The inverse reading of a `sender` string. -/
def senderOfString (s : String) : Option Sender :=
  if s = "user" then some Sender.user
  else if s = "ai" then some Sender.ai
  else if s = "system" then some Sender.system
  else none

/-- `JSON.stringify` of one message: the three mandatory fields, plus
`imageUrl` only when present (`undefined` fields are omitted). -/
def encodeMessage (m : Message) : Json :=
  Json.obj
    ([("id", Json.str m.id),
      ("sender", Json.str (senderToString m.sender)),
      ("text", Json.str m.text)] ++
      (match m.imageUrl with
        | some u => [("imageUrl", Json.str u)]
        | none => []))

/-- `JSON.stringify(messages)`: the exported chat log. -/
def encodeMessages (ms : List Message) : Json :=
  Json.arr (ms.map encodeMessage)

/-- Property lookup on a parsed JSON object (`msg.key`; `none` when the key is
absent, which is what `=== undefined` observes on parsed JSON). -/
def getField (fields : List (String × Json)) (key : String) : Option Json :=
  (fields.find? (fun kv => kv.1 == key)).map (fun kv => kv.2)

/-- The element-shape check of `handleFileUpload`: an object whose `id` is a
string, whose `sender` is one of user/ai/system, whose `text` is a string,
and whose `imageUrl` is absent (`undefined`), `null`, or a string. -/
def isValidMessageJson : Json → Bool
  | Json.obj fields =>
      (match getField fields "id" with
        | some (Json.str _) => true
        | _ => false) &&
      (match getField fields "sender" with
        | some (Json.str s) => s == "user" || s == "ai" || s == "system"
        | _ => false) &&
      (match getField fields "text" with
        | some (Json.str _) => true
        | _ => false) &&
      (match getField fields "imageUrl" with
        | none => true
        | some Json.null => true
        | some (Json.str _) => true
        | _ => false)
  | _ => false

/-- The typed message a valid imported element becomes.  A `null` imageUrl is
observationally equivalent to an absent one in this app (it is only ever read
through truthiness), so it is modelled as `none`. -/
def decodeMessage : Json → Option Message
  | Json.obj fields =>
    (match getField fields "id", getField fields "sender", getField fields "text" with
      | some (Json.str i), some (Json.str s), some (Json.str t) =>
        (senderOfString s).map (fun sender =>
          { id := i
            sender := sender
            text := t
            imageUrl :=
              match getField fields "imageUrl" with
              | some (Json.str u) => some u
              | _ => none })
      | _, _, _ => none)
  | _ => none

/-- `loadedMessages[0].sender === 'system'` on the parsed element. -/
def jsonSenderIsSystem : Json → Bool
  | Json.obj fields =>
    (match getField fields "sender" with
      | some (Json.str s) => s == "system"
      | _ => false)
  | _ => false

/-- Whether `handleFileUpload` accepts the parsed document: an array whose
elements all satisfy the shape check (otherwise it throws into the catch
block and the log is untouched). -/
def importAccepted : Json → Bool
  | Json.arr elems => elems.all isValidMessageJson
  | _ => false

/-- `handleFileUpload` on a parsed document: on a valid non-degenerate array,
the log becomes the loaded messages plus the appended "loaded" system notice;
a valid empty array or single-system-message array resets the log to the
"cleared" notice; everything else throws and leaves the current log
unchanged.  `noticeId`/`clearedId` stand for the fresh `crypto.randomUUID()`
values. -/
def handleFileUpload (current : List Message) (doc : Json) (noticeId clearedId : String) :
    List Message :=
  match doc with
  | Json.arr elems =>
    if elems.all isValidMessageJson then
      if elems.length > 0 &&
          !(elems.length == 1 &&
            (match elems.head? with
              | some e => jsonSenderIsSystem e
              | none => false)) then
        elems.filterMap decodeMessage ++
          [{ id := noticeId, sender := Sender.system, text := loadedSystemMessage }]
      else
        [{ id := clearedId, sender := Sender.system, text := clearedSystemMessage }]
    else current
  | _ => current

/-- Whether the parsed array is a single element whose sender is `system`
(the degenerate-import condition of `handleFileUpload`), phrased on the typed
log. -/
def singleSystemHead (ms : List Message) : Bool :=
  ms.length == 1 &&
    (match ms.head? with
      | some m => m.sender == Sender.system
      | none => false)

/-- The fields of an imported element carrying `"imageUrl": null`. -/
def nullImageFields : List (String × Json) :=
  [("id", Json.str "x1"), ("sender", Json.str "user"),
   ("text", Json.str "hi"), ("imageUrl", Json.null)]

/-- An imported element carrying `"imageUrl": null`. -/
def nullImageElement : Json :=
  Json.obj nullImageFields

/-- A message log consisting of one system error message: exportable, but not
re-importable verbatim. -/
def singleSystemLog : List Message :=
  [{ id := "m1", sender := Sender.system, text := "Error: boom" }]

/-- A four-message conversation log used to exercise edit-and-resend. -/
def sampleEditLog : List Message :=
  [{ id := "u1", sender := Sender.user, text := "first" },
   { id := "a1", sender := Sender.ai, text := "reply one" },
   { id := "u2", sender := Sender.user, text := "second" },
   { id := "a2", sender := Sender.ai, text := "reply two" }]

/-- The guard of `handleDownloadChat`: the export proceeds unless the log is
empty or consists of the single initial/cleared system notice. -/
def downloadWilling (ms : List Message) : Bool :=
  !(ms.length == 0 ||
    (ms.length == 1 &&
      (match ms.head? with
        | some m =>
          (m.sender == Sender.system) &&
            (m.text == initialSystemMessage || m.text == clearedSystemMessage)
        | none => false)))

/-! ### Edit-and-resend (`handleSendMessage` with `editingMessageId`) -/

/-- `findIndex(msg => msg.id === editingMessageId)`. -/
def findIndexById : List Message → String → Option Nat
  | [], _ => none
  | m :: rest, targetId =>
    if m.id = targetId then some 0 else (findIndexById rest targetId).map (fun i => i + 1)

/-- `updatedUserMessage`: the target message with the new text and the new
image (`currentUserImagePreview || undefined`). -/
def editedMessage (orig : Message) (newText : String) (newImage : Option String) : Message :=
  { orig with
    text := newText
    imageUrl := if strTruthy newImage then newImage else none }

/-- The immediate UI update: `[...messages.slice(0, editIndex), updatedUserMessage]`. -/
def truncateForEdit (ms : List Message) (i : Nat) (edited : Message) : List Message :=
  ms.take i ++ [edited]

/-- The single message appended when the request settles: an AI message with
the response text on success, a system message with the error text on
failure. -/
def aiOrErrorMessage (newId : String) (outcome : Except String String) : Message :=
  match outcome with
  | Except.ok responseText => { id := newId, sender := Sender.ai, text := responseText }
  | Except.error errMessage => { id := newId, sender := Sender.system, text := "Error: " ++ errMessage }

/-- The settle-time update: find the edited message again by id and keep
exactly the prefix up to and including it, then append the new message (the
code's fallback appends at the end if the id is gone). -/
def appendAfterEdit (ms : List Message) (editId : String) (newMsg : Message) : List Message :=
  match findIndexById ms editId with
  | some i => ms.take (i + 1) ++ [newMsg]
  | none => ms ++ [newMsg]

/-- The whole edit-and-resend operation on the log, with the provider outcome
passed in (`Except.ok response` for success, `Except.error message` for a
thrown error): truncate at the edited message, replace it with the edited
content (`inputValue.trim()` and the image preview), and append the one
settled message.  A missing edit target aborts with the log unchanged. -/
def editAndResend (ms : List Message) (editId rawText : String) (imagePreview : Option String)
    (newId : String) (outcome : Except String String) : List Message :=
  match findIndexById ms editId with
  | none => ms
  | some i =>
    match ms[i]? with
    | none => ms
    | some orig =>
      let edited := editedMessage orig (jsTrim rawText) imagePreview
      appendAfterEdit (truncateForEdit ms i edited) editId (aiOrErrorMessage newId outcome)

/-! ## Sample values used by counterexamples and witnesses -/

/-- Concrete input for the C1 counterexample: a text-only model, a *present
but empty* `photoDataUri`, and empty prompt text. -/
def textOnlyEmptyPhotoInput : RelayUserPromptInput :=
  { prompt := some "", model := "openai/gpt-3.5-turbo", photoDataUri := some "", history := none }

/-- Sample history turn with text and an image. -/
def sampleImageTurn : ChatTurn :=
  { role := Role.user, text := some " hello ", photoDataUri := some "data:image/png;base64,BB" }

/-- Sample history turn with whitespace-only text and no image. -/
def sampleEmptyTurn : ChatTurn :=
  { role := Role.model, text := some "  ", photoDataUri := none }

/-- Sample sampling configuration with two fields set. -/
def sampleConfig : ModelConfigState :=
  { temperature := some (7/10), topK := some 40 }

/-! ## The per-message content invariant -/

/-- Recognizer for text parts. -/
def isTextPart : Part → Bool
  | Part.text _ => true
  | Part.media _ => false

/-- Recognizer for media parts. -/
def isMediaPart : Part → Bool
  | Part.media _ => true
  | Part.text _ => false

/-- The per-message content invariant: at most one text part, at most one
media part, and every text part precedes every media part (whenever any text
part sits at index `i` and any media part at index `j`, `i < j`). -/
def partsInvariant (ps : List Part) : Prop :=
  ps.countP isTextPart ≤ 1 ∧ ps.countP isMediaPart ≤ 1 ∧
  ∀ i j : ℕ, (∃ t, ps[i]? = some (Part.text t)) → (∃ m, ps[j]? = some (Part.media m)) →
    i < j

/-! ## Helper lemmas -/

@[simp] theorem strTruthy_none : strTruthy none = false := rfl

@[simp] theorem strTruthy_some (s : String) : strTruthy (some s) = (s ≠ "" : Bool) := rfl

/-- Inversion of the flow: a provider call carries exactly the normalized
current parts, the normalized history (omitted when empty), and no config. -/
theorem relayFlow_call_inv {input : RelayUserPromptInput} {opts : GenerateOptions}
    (h : relayUserPromptFlow input = FlowResult.call opts) :
    opts = { model := input.model
             prompt := normalizedCurrentParts input
             messages := if (normalizedHistory input).isEmpty then none
                         else some (normalizedHistory input)
             config := none } := by
  unfold relayUserPromptFlow at h
  split at h
  · exact FlowResult.noConfusion h
  · split at h
    · exact FlowResult.noConfusion h
    · injection h with h'
      exact h'.symm

/-- A truthy retained photo forces a media part, so the current parts are
non-empty. -/
theorem normalizedCurrentParts_ne_nil_of_photo {input : RelayUserPromptInput} {p : String}
    (hfp : finalPhotoDataUri input = some p) (hp : p ≠ "") :
    normalizedCurrentParts input ≠ [] := by
  unfold normalizedCurrentParts currentPromptPartsForAI
  rw [hfp]
  simp [hp]

/-- A media part of a normalized history turn requires a non-text-only model
and comes from that turn's photo. -/
theorem mem_historicalTurnParts_media {textOnly : Bool} {turn : ChatTurn} {p : String}
    (h : Part.media p ∈ historicalTurnParts textOnly turn) :
    textOnly = false ∧ turn.photoDataUri = some p := by
  unfold historicalTurnParts at h
  rw [List.mem_append] at h
  rcases h with h | h
  · exfalso
    cases htext : turn.text with
    | none => simp [htext] at h
    | some t =>
      simp only [htext] at h
      split at h <;> simp at h
  · cases hphoto : turn.photoDataUri with
    | none => simp [hphoto] at h
    | some q =>
      simp only [hphoto] at h
      split at h
      next hc =>
        simp only [List.mem_singleton, Part.media.injEq] at h
        subst h
        rw [Bool.and_eq_true] at hc
        exact ⟨by simpa using hc.2, rfl⟩
      next hc => simp at h

/-! ## Claims -/

/-- C1 counterexample: the claim quantifies over every input whose model is in
the text-only allow-list and whose `photoDataUri` is *present*; with a present
but empty `photoDataUri` (falsy in JS) and empty prompt text, the flow does
not return the image refusal — it returns the empty-prompt canned response
instead, because the truthiness guard `finalPhotoDataUriForCurrentPrompt`
treats `""` as absent. -/
theorem relay_text_only_image_claim_counterexample :
    isTextOnlyModel textOnlyEmptyPhotoInput.model = true ∧
    textOnlyEmptyPhotoInput.photoDataUri.isSome = true ∧
    trimmedPrompt textOnlyEmptyPhotoInput = some "" ∧
    relayUserPromptFlow textOnlyEmptyPhotoInput ≠ FlowResult.canned imageRefusalResponse ∧
    relayUserPromptFlow textOnlyEmptyPhotoInput = FlowResult.canned emptyPromptResponse := by
  decide

/-- C1 (amended): for every input whose model is in the fixed text-only
allow-list and whose `photoDataUri` is present and non-empty: if the trimmed
prompt text is empty (falsy), the flow returns the canned image refusal and
performs no provider generation call; otherwise it drops the image and
proceeds with text only — the provider call's prompt is exactly the trimmed
text part. -/
theorem relay_text_only_image_refusal_or_strip (input : RelayUserPromptInput) (u : String)
    (hmodel : isTextOnlyModel input.model = true)
    (hphoto : input.photoDataUri = some u) (hu : u ≠ "") :
    (strTruthy (trimmedPrompt input) = false →
      relayUserPromptFlow input = FlowResult.canned imageRefusalResponse) ∧
    (∀ t, trimmedPrompt input = some t → t ≠ "" →
      ∃ opts, relayUserPromptFlow input = FlowResult.call opts ∧
        opts.prompt = [Part.text t]) := by
  constructor
  · intro htr
    have hguard : (isTextOnlyModel input.model && strTruthy input.photoDataUri
        && !strTruthy (trimmedPrompt input)) = true := by
      rw [hmodel, hphoto, htr]
      simp [hu]
    unfold relayUserPromptFlow
    rw [hguard]
    simp
  · intro t ht htne
    have htr : strTruthy (trimmedPrompt input) = true := by rw [ht]; simpa using htne
    have hguard : (isTextOnlyModel input.model && strTruthy input.photoDataUri
        && !strTruthy (trimmedPrompt input)) = false := by
      rw [htr]
      simp
    have hfp : finalPhotoDataUri input = none := by
      unfold finalPhotoDataUri
      rw [if_pos]
      rw [hmodel, hphoto, htr]
      simp [hu]
    have hcur : normalizedCurrentParts input = [Part.text t] := by
      unfold normalizedCurrentParts currentPromptPartsForAI effectiveCurrentPromptText
      rw [hfp, ht]
      simp [htne]
    refine ⟨{ model := input.model, prompt := [Part.text t],
              messages := if (normalizedHistory input).isEmpty then none
                          else some (normalizedHistory input),
              config := none }, ?_, rfl⟩
    unfold relayUserPromptFlow
    rw [hguard, hcur]
    simp

/-- C1 witness: both branches of the amended claim at concrete inputs — a
text-only model given only an image is refused; given an image and text, the
image is dropped and only the trimmed text is sent. -/
theorem relay_text_only_image_refusal_or_strip_witness :
    relayUserPromptFlow
        { prompt := none, model := "openai/gpt-3.5-turbo",
          photoDataUri := some "data:image/png;base64,AA", history := none } =
      FlowResult.canned imageRefusalResponse ∧
    (∃ opts, relayUserPromptFlow
        { prompt := some "  hi ", model := "openai/grok-3",
          photoDataUri := some "data:image/png;base64,AA", history := none } =
      FlowResult.call opts ∧ opts.prompt = [Part.text "hi"]) := by
  constructor
  · exact (relay_text_only_image_refusal_or_strip _ "data:image/png;base64,AA"
      (by decide) rfl (by decide)).1 (by decide)
  · exact (relay_text_only_image_refusal_or_strip _ "data:image/png;base64,AA"
      (by decide) rfl (by decide)).2 "hi" (by decide) (by decide)

/-- C2: whenever normalization leaves both the current-turn part list and the
history empty, the flow returns exactly the canned "Please provide a prompt."
response and performs no provider generation call. -/
theorem relay_empty_request_canned (input : RelayUserPromptInput)
    (hcur : normalizedCurrentParts input = [])
    (hhist : normalizedHistory input = []) :
    relayUserPromptFlow input = FlowResult.canned emptyPromptResponse := by
  have hguard : (isTextOnlyModel input.model && strTruthy input.photoDataUri
      && !strTruthy (trimmedPrompt input)) = false := by
    by_contra hg
    rw [Bool.not_eq_false, Bool.and_eq_true, Bool.and_eq_true] at hg
    obtain ⟨⟨hto, hph⟩, htr⟩ := hg
    rw [Bool.not_eq_true'] at htr
    obtain ⟨p, hpd, hp⟩ : ∃ p, input.photoDataUri = some p ∧ p ≠ "" := by
      cases hpd : input.photoDataUri with
      | none => rw [hpd] at hph; simp at hph
      | some p =>
        refine ⟨p, rfl, ?_⟩
        rw [hpd] at hph
        simpa using hph
    have hfp : finalPhotoDataUri input = some p := by
      unfold finalPhotoDataUri
      rw [htr]
      simpa using hpd
    exact normalizedCurrentParts_ne_nil_of_photo hfp hp hcur
  unfold relayUserPromptFlow
  rw [hguard, hcur, hhist]
  simp

/-- C2 witness: a whitespace-only prompt, no image, and a history whose only
turn is whitespace-only with no image, yields the canned response. -/
theorem relay_empty_request_canned_witness :
    relayUserPromptFlow
        { prompt := some "   ", model := "openai/gpt-4o", photoDataUri := none,
          history := some [{ role := Role.user, text := some " \n ", photoDataUri := none }] } =
      FlowResult.canned emptyPromptResponse :=
  relay_empty_request_canned _ (by decide) (by decide)

/-- C4: per-turn history normalization: a turn's trimmed text is kept when
non-empty; a media part is kept only when the model is not text-only (and is
that turn's photo); and a turn with neither a non-whitespace text nor a
retained image is excluded — it is normalized to nothing, and removing it
from any history leaves the normalized history unchanged. -/
theorem history_turn_normalization (model : String) (turn : ChatTurn) :
    (∀ t, turn.text = some t → jsTrim t ≠ "" →
      Part.text (jsTrim t) ∈ historicalTurnParts (isTextOnlyModel model) turn) ∧
    (∀ p, Part.media p ∈ historicalTurnParts (isTextOnlyModel model) turn →
      isTextOnlyModel model = false ∧ turn.photoDataUri = some p) ∧
    (strTruthy (turn.text.map jsTrim) = false →
      (strTruthy turn.photoDataUri = false ∨ isTextOnlyModel model = true) →
      normalizeHistoryTurn (isTextOnlyModel model) turn = none ∧
      ∀ h₁ h₂ : List ChatTurn,
        pastMessagesForAI (isTextOnlyModel model) (some (h₁ ++ turn :: h₂)) =
          pastMessagesForAI (isTextOnlyModel model) (some (h₁ ++ h₂))) := by
  refine ⟨?_, fun p hp => mem_historicalTurnParts_media hp, ?_⟩
  · intro t ht htrim
    have htne : t ≠ "" := fun h0 => htrim (by rw [h0]; rfl)
    unfold historicalTurnParts
    rw [List.mem_append]
    left
    rw [ht]
    simp [htne, htrim]
  · intro htext himg
    have hparts : historicalTurnParts (isTextOnlyModel model) turn = [] := by
      unfold historicalTurnParts
      rw [List.append_eq_nil]
      constructor
      · split
        next t ht =>
          split
          next hc =>
            exfalso
            rw [Bool.and_eq_true] at hc
            have htr : jsTrim t ≠ "" := by simpa using hc.2
            rw [ht] at htext
            simp at htext
            exact htr htext
          next => rfl
        next => rfl
      · split
        next p hp =>
          split
          next hc =>
            exfalso
            rw [Bool.and_eq_true] at hc
            rcases himg with himg | himg
            · rw [hp] at himg
              have hpe : p = "" := by simpa using himg
              exact absurd hc.1 (by simp [hpe])
            · exact absurd hc.2 (by simp [himg])
          next => rfl
        next => rfl
    have hnone : normalizeHistoryTurn (isTextOnlyModel model) turn = none := by
      unfold normalizeHistoryTurn
      rw [hparts]
      rfl
    refine ⟨hnone, fun h₁ h₂ => ?_⟩
    simp [pastMessagesForAI, List.filterMap_append, List.filterMap_cons, hnone]

/-- C4 witness: the three normalization facts at concrete turns and models. -/
theorem history_turn_normalization_witness :
    Part.text "hello" ∈
      historicalTurnParts (isTextOnlyModel "googleai/gemini-1.5-flash-latest") sampleImageTurn ∧
    (isTextOnlyModel "googleai/gemini-1.5-flash-latest" = false ∧
      sampleImageTurn.photoDataUri = some "data:image/png;base64,BB") ∧
    normalizeHistoryTurn (isTextOnlyModel "openai/grok-3") sampleEmptyTurn = none ∧
    pastMessagesForAI (isTextOnlyModel "openai/grok-3") (some ([sampleImageTurn] ++ sampleEmptyTurn :: [])) =
      pastMessagesForAI (isTextOnlyModel "openai/grok-3") (some ([sampleImageTurn] ++ [])) := by
  refine ⟨?_, ?_, ?_, ?_⟩
  · exact (history_turn_normalization "googleai/gemini-1.5-flash-latest" sampleImageTurn).1
      " hello " rfl (by decide)
  · exact (history_turn_normalization "googleai/gemini-1.5-flash-latest" sampleImageTurn).2.1
      "data:image/png;base64,BB" (by decide)
  · exact ((history_turn_normalization "openai/grok-3" sampleEmptyTurn).2.2
      (by decide) (Or.inl (by decide))).1
  · exact ((history_turn_normalization "openai/grok-3" sampleEmptyTurn).2.2
      (by decide) (Or.inl (by decide))).2 [sampleImageTurn] []

/-- A media part among the current-turn parts can only be the retained photo,
and only when it is truthy. -/
theorem mem_normalizedCurrentParts_media {input : RelayUserPromptInput} {p : String}
    (h : Part.media p ∈ normalizedCurrentParts input) :
    finalPhotoDataUri input = some p ∧ p ≠ "" := by
  unfold normalizedCurrentParts currentPromptPartsForAI at h
  rw [List.mem_append] at h
  rcases h with h | h
  · exfalso
    split at h <;> simp at h
  · cases hfp : finalPhotoDataUri input with
    | none => rw [hfp] at h; simp at h
    | some q =>
      simp only [hfp] at h
      split at h
      next hc =>
        simp only [List.mem_singleton, Part.media.injEq] at h
        subst h
        exact ⟨rfl, by simpa using hc⟩
      next => simp at h

/-- Every normalized history message's content is the part list of some turn. -/
theorem mem_normalizedHistory {input : RelayUserPromptInput} {md : MessageData}
    (h : md ∈ normalizedHistory input) :
    ∃ turn, md.content = historicalTurnParts (isTextOnlyModel input.model) turn := by
  unfold normalizedHistory at h
  cases hh : input.history with
  | none => rw [hh] at h; simp [pastMessagesForAI] at h
  | some turns =>
    rw [hh] at h
    simp only [pastMessagesForAI] at h
    obtain ⟨turn, -, hsome⟩ := List.mem_filterMap.mp h
    refine ⟨turn, ?_⟩
    unfold normalizeHistoryTurn at hsome
    split at hsome
    · exact Option.noConfusion hsome
    · injection hsome with hsome
      rw [← hsome]

/-- C5: for a text-only model with both an attached image and non-whitespace
prompt text, the provider call contains no media part anywhere: neither in
the current-turn parts nor in any normalized history message. -/
theorem text_only_request_has_no_media (input : RelayUserPromptInput) (u t : String)
    (opts : GenerateOptions)
    (hmodel : isTextOnlyModel input.model = true)
    (hphoto : input.photoDataUri = some u)
    (htrim : trimmedPrompt input = some t) (ht : t ≠ "")
    (hcall : relayUserPromptFlow input = FlowResult.call opts) :
    (∀ p, Part.media p ∉ opts.prompt) ∧
    (∀ md ∈ opts.messages.getD [], ∀ p, Part.media p ∉ md.content) := by
  have hopts := relayFlow_call_inv hcall
  subst hopts
  constructor
  · intro p hp
    have hp' : Part.media p ∈ normalizedCurrentParts input := hp
    obtain ⟨hfpEq, hpne⟩ := mem_normalizedCurrentParts_media hp'
    by_cases hu : u = ""
    · have hfp : finalPhotoDataUri input = some u := by
        unfold finalPhotoDataUri
        rw [hphoto, hu]
        simp
      rw [hfp] at hfpEq
      injection hfpEq with hfpEq
      exact hpne (hfpEq ▸ hu)
    · have hfp : finalPhotoDataUri input = none := by
        unfold finalPhotoDataUri
        rw [hmodel, hphoto, htrim]
        simp [hu, ht]
      rw [hfp] at hfpEq
      exact Option.noConfusion hfpEq
  · intro md hmd p hp
    have hmd' : md ∈ normalizedHistory input := by
      by_cases hpast : (normalizedHistory input).isEmpty
      · simp [hpast] at hmd
      · simpa [hpast] using hmd
    obtain ⟨turn, hcontent⟩ := mem_normalizedHistory hmd'
    rw [hcontent] at hp
    obtain ⟨hfalse, -⟩ := mem_historicalTurnParts_media hp
    rw [hmodel] at hfalse
    exact Bool.noConfusion hfalse

/-- C5 witness: a text-only model with image and text in both the current
turn and the history produces a call with no media part anywhere. -/
theorem text_only_request_has_no_media_witness :
    (∀ p, Part.media p ∉
      (GenerateOptions.mk "openai/gpt-3.5-turbo" [Part.text "hi"]
        (some [{ role := Role.user, content := [Part.text "hello"] }]) none).prompt) ∧
    (∀ md ∈ (GenerateOptions.mk "openai/gpt-3.5-turbo" [Part.text "hi"]
        (some [{ role := Role.user, content := [Part.text "hello"] }]) none).messages.getD [],
      ∀ p, Part.media p ∉ md.content) :=
  text_only_request_has_no_media
    { prompt := some " hi ", model := "openai/gpt-3.5-turbo",
      photoDataUri := some "data:image/png;base64,AA",
      history := some [sampleImageTurn] }
    "data:image/png;base64,AA" "hi" _ (by decide) rfl (by decide) (by decide) (by decide)

/-- C6: the current turn's text part is the literal "Describe this image."
when the trimmed text is empty but a retained image is present, and is the
trimmed text unchanged when the trimmed text is non-empty. -/
theorem current_turn_text_part (input : RelayUserPromptInput) :
    (strTruthy (trimmedPrompt input) = false → strTruthy (finalPhotoDataUri input) = true →
      (normalizedCurrentParts input).head? = some (Part.text "Describe this image.")) ∧
    (∀ t, trimmedPrompt input = some t → t ≠ "" →
      (normalizedCurrentParts input).head? = some (Part.text t)) := by
  constructor
  · intro htr hfp
    have heff : effectiveCurrentPromptText (trimmedPrompt input) (finalPhotoDataUri input)
        = "Describe this image." := by
      cases ht : trimmedPrompt input with
      | none => simp [effectiveCurrentPromptText, hfp]
      | some t =>
        rw [ht] at htr
        have ht0 : t = "" := by simpa using htr
        simp [effectiveCurrentPromptText, ht0, hfp]
    unfold normalizedCurrentParts currentPromptPartsForAI
    rw [heff]
    simp
  · intro t ht htne
    have heff : effectiveCurrentPromptText (trimmedPrompt input) (finalPhotoDataUri input)
        = t := by
      rw [ht]
      simp [effectiveCurrentPromptText, htne]
    unfold normalizedCurrentParts currentPromptPartsForAI
    rw [heff]
    simp [htne]

/-- C6 witness: both branches at concrete inputs — an image-only prompt gets
the default caption, a text prompt keeps its trimmed text. -/
theorem current_turn_text_part_witness :
    (normalizedCurrentParts
        { prompt := none, model := "openai/gpt-4o",
          photoDataUri := some "data:image/png;base64,AA", history := none }).head? =
      some (Part.text "Describe this image.") ∧
    (normalizedCurrentParts
        { prompt := some " hi there ", model := "openai/gpt-4o",
          photoDataUri := none, history := none }).head? =
      some (Part.text "hi there") := by
  constructor
  · exact (current_turn_text_part _).1 (by decide) (by decide)
  · exact (current_turn_text_part _).2 "hi there" (by decide) (by decide)

/-- The empty part list satisfies the content invariant. -/
theorem partsInvariant_nil : partsInvariant ([] : List Part) := by
  refine ⟨by simp, by simp, ?_⟩
  intro i j hi hj
  obtain ⟨t, ht⟩ := hi
  simp at ht

/-- A single text part satisfies the content invariant. -/
theorem partsInvariant_text (t : String) : partsInvariant [Part.text t] := by
  refine ⟨by simp [List.countP_cons, isTextPart], by simp [List.countP_cons, isMediaPart], ?_⟩
  intro i j hi hj
  exfalso
  obtain ⟨m, hm⟩ := hj
  rcases j with _ | j
  · simp at hm
  · simp at hm

/-- A single media part satisfies the content invariant. -/
theorem partsInvariant_media (m : String) : partsInvariant [Part.media m] := by
  refine ⟨by simp [List.countP_cons, isTextPart], by simp [List.countP_cons, isMediaPart], ?_⟩
  intro i j hi hj
  exfalso
  obtain ⟨t, ht⟩ := hi
  rcases i with _ | i
  · simp at ht
  · simp at ht

/-- A text part followed by a media part satisfies the content invariant. -/
theorem partsInvariant_text_media (t m : String) :
    partsInvariant [Part.text t, Part.media m] := by
  refine ⟨by simp [List.countP_cons, isTextPart, isMediaPart],
    by simp [List.countP_cons, isTextPart, isMediaPart], ?_⟩
  intro i j hi hj
  obtain ⟨t', ht'⟩ := hi
  obtain ⟨m', hm'⟩ := hj
  rcases i with _ | _ | i
  · rcases j with _ | _ | j
    · simp at hm'
    · exact Nat.zero_lt_one
    · simp at hm'
  · simp at ht'
  · simp at ht'

/-- A list built as an optional text part followed by an optional media part
satisfies the content invariant. -/
theorem partsInvariant_shape {ts ms : List Part}
    (hts : ts = [] ∨ ∃ t, ts = [Part.text t]) (hms : ms = [] ∨ ∃ m, ms = [Part.media m]) :
    partsInvariant (ts ++ ms) := by
  rcases hts with rfl | ⟨t, rfl⟩ <;> rcases hms with rfl | ⟨m, rfl⟩
  · exact partsInvariant_nil
  · simpa using partsInvariant_media m
  · simpa using partsInvariant_text t
  · simpa using partsInvariant_text_media t m

/-- The history part list of a turn is an optional text part followed by an
optional media part. -/
theorem historicalTurnParts_shape (textOnly : Bool) (turn : ChatTurn) :
    ∃ ts ms, historicalTurnParts textOnly turn = ts ++ ms ∧
      (ts = [] ∨ ∃ t, ts = [Part.text t]) ∧ (ms = [] ∨ ∃ m, ms = [Part.media m]) := by
  unfold historicalTurnParts
  refine ⟨(match turn.text with
      | some t => if t ≠ "" && jsTrim t ≠ "" then [Part.text (jsTrim t)] else []
      | none => []),
    (match turn.photoDataUri with
      | some p => if p ≠ "" && !textOnly then [Part.media p] else []
      | none => []), rfl, ?_, ?_⟩
  · split
    · split
      · exact Or.inr ⟨_, rfl⟩
      · exact Or.inl rfl
    · exact Or.inl rfl
  · split
    · split
      · exact Or.inr ⟨_, rfl⟩
      · exact Or.inl rfl
    · exact Or.inl rfl

/-- The current-turn part list is an optional text part followed by an
optional media part. -/
theorem currentPromptParts_shape (trimmed fp : Option String) :
    ∃ ts ms, currentPromptPartsForAI trimmed fp = ts ++ ms ∧
      (ts = [] ∨ ∃ t, ts = [Part.text t]) ∧ (ms = [] ∨ ∃ m, ms = [Part.media m]) := by
  unfold currentPromptPartsForAI
  refine ⟨(if effectiveCurrentPromptText trimmed fp ≠ "" then
      [Part.text (effectiveCurrentPromptText trimmed fp)]
    else []),
    (match fp with
      | some p => if p ≠ "" then [Part.media p] else []
      | none => []), rfl, ?_, ?_⟩
  · split
    · exact Or.inr ⟨_, rfl⟩
    · exact Or.inl rfl
  · split
    · split
      · exact Or.inr ⟨_, rfl⟩
      · exact Or.inl rfl
    · exact Or.inl rfl

/-- C10: every message of a normalized request — the current-turn part list
and each retained history message — contains at most one text part, at most
one media part, and any text part precedes any media part. -/
theorem request_parts_invariant (input : RelayUserPromptInput) (opts : GenerateOptions)
    (hcall : relayUserPromptFlow input = FlowResult.call opts) :
    partsInvariant opts.prompt ∧
    ∀ md ∈ opts.messages.getD [], partsInvariant md.content := by
  have hopts := relayFlow_call_inv hcall
  subst hopts
  constructor
  · show partsInvariant (normalizedCurrentParts input)
    obtain ⟨ts, ms, heq, hts, hms⟩ :=
      currentPromptParts_shape (trimmedPrompt input) (finalPhotoDataUri input)
    unfold normalizedCurrentParts
    rw [heq]
    exact partsInvariant_shape hts hms
  · intro md hmd
    have hmd' : md ∈ normalizedHistory input := by
      by_cases hpast : (normalizedHistory input).isEmpty
      · simp [hpast] at hmd
      · simpa [hpast] using hmd
    obtain ⟨turn, hcontent⟩ := mem_normalizedHistory hmd'
    obtain ⟨ts, ms, heq, hts, hms⟩ :=
      historicalTurnParts_shape (isTextOnlyModel input.model) turn
    rw [hcontent, heq]
    exact partsInvariant_shape hts hms

/-- C10 witness: the invariant at a concrete request with text plus image in
the current turn and in one history turn. -/
theorem request_parts_invariant_witness :
    partsInvariant (GenerateOptions.mk "openai/gpt-4o"
        [Part.text "hi", Part.media "data:image/png;base64,AA"]
        (some [{ role := Role.user,
                 content := [Part.text "hello", Part.media "data:image/png;base64,BB"] }])
        none).prompt ∧
    ∀ md ∈ (GenerateOptions.mk "openai/gpt-4o"
        [Part.text "hi", Part.media "data:image/png;base64,AA"]
        (some [{ role := Role.user,
                 content := [Part.text "hello", Part.media "data:image/png;base64,BB"] }])
        none).messages.getD [], partsInvariant md.content :=
  request_parts_invariant
    { prompt := some " hi ", model := "openai/gpt-4o",
      photoDataUri := some "data:image/png;base64,AA",
      history := some [sampleImageTurn] } _ (by decide)

/-- `if o.isSome then o else none` is just `o`. -/
theorem if_isSome_eq (o : Option ℚ) : (if o.isSome then o else none) = o := by
  cases o <;> simp

/-- An option that is not `some` is `none`. -/
theorem eq_none_of_isSome_eq_false {α : Type} {o : Option α} (h : o.isSome = false) :
    o = none := by
  cases o
  · rfl
  · simp at h

/-- The `flowConfig` built field-by-field carries exactly the set fields. -/
theorem buildFlowConfig_eq (mc : ModelConfigState) : buildFlowConfig mc = mc := by
  rcases mc with ⟨a, b, c, d⟩
  unfold buildFlowConfig
  simp [if_isSome_eq]

/-- C3: for every sampling configuration and every provider call issued by
the flow, attaching the forwarded config yields call options in which each of
the four sampling fields is exactly the user's setting: a set field arrives
unchanged, an unset field is omitted (no value is passed — in particular,
when nothing is set the whole `config` key is omitted).  The flow side is
modelled from the spec (see `attachModelConfig`). -/
theorem sampling_config_forwarded_exactly (mc : ModelConfigState)
    (input : RelayUserPromptInput) (opts : GenerateOptions)
    (hcall : relayUserPromptFlow input = FlowResult.call opts) :
    sentConfigField (attachModelConfig opts (modelConfigForInput mc))
        ModelConfigState.maxOutputTokens = mc.maxOutputTokens ∧
    sentConfigField (attachModelConfig opts (modelConfigForInput mc))
        ModelConfigState.temperature = mc.temperature ∧
    sentConfigField (attachModelConfig opts (modelConfigForInput mc))
        ModelConfigState.topP = mc.topP ∧
    sentConfigField (attachModelConfig opts (modelConfigForInput mc))
        ModelConfigState.topK = mc.topK := by
  have hconf : opts.config = none := by rw [relayFlow_call_inv hcall]
  unfold modelConfigForInput
  rw [buildFlowConfig_eq]
  by_cases hk : configHasKeys mc = true
  · rw [if_pos hk]
    simp [attachModelConfig, sentConfigField]
  · rw [if_neg (by simpa using hk)]
    rw [Bool.not_eq_true] at hk
    unfold configHasKeys at hk
    simp only [Bool.or_eq_false_iff] at hk
    obtain ⟨⟨⟨h1, h2⟩, h3⟩, h4⟩ := hk
    simp [attachModelConfig, sentConfigField, hconf,
      eq_none_of_isSome_eq_false h1, eq_none_of_isSome_eq_false h2,
      eq_none_of_isSome_eq_false h3, eq_none_of_isSome_eq_false h4]

/-- C3 witness: at a concrete request, the set temperature and topK arrive
unchanged and the unset fields are omitted. -/
theorem sampling_config_forwarded_exactly_witness :
    sentConfigField (attachModelConfig
        (GenerateOptions.mk "openai/gpt-4o" [Part.text "hi"] none none)
        (modelConfigForInput sampleConfig)) ModelConfigState.maxOutputTokens =
      sampleConfig.maxOutputTokens ∧
    sentConfigField (attachModelConfig
        (GenerateOptions.mk "openai/gpt-4o" [Part.text "hi"] none none)
        (modelConfigForInput sampleConfig)) ModelConfigState.temperature =
      sampleConfig.temperature ∧
    sentConfigField (attachModelConfig
        (GenerateOptions.mk "openai/gpt-4o" [Part.text "hi"] none none)
        (modelConfigForInput sampleConfig)) ModelConfigState.topP =
      sampleConfig.topP ∧
    sentConfigField (attachModelConfig
        (GenerateOptions.mk "openai/gpt-4o" [Part.text "hi"] none none)
        (modelConfigForInput sampleConfig)) ModelConfigState.topK =
      sampleConfig.topK :=
  sampling_config_forwarded_exactly sampleConfig
    { prompt := some "hi", model := "openai/gpt-4o", photoDataUri := none, history := none }
    _ (by decide)

/-- An exported message passes the import shape check. -/
theorem isValid_encode (m : Message) : isValidMessageJson (encodeMessage m) = true := by
  obtain ⟨i, s, t, img⟩ := m
  cases img <;> cases s <;>
    simp [encodeMessage, isValidMessageJson, getField, List.find?, senderToString]

/-- Decoding an exported message gives back the original message. -/
theorem decode_encode (m : Message) : decodeMessage (encodeMessage m) = some m := by
  obtain ⟨i, s, t, img⟩ := m
  cases img <;> cases s <;>
    simp [encodeMessage, decodeMessage, getField, List.find?, senderToString, senderOfString]

/-- Decoding an exported log gives back the original log. -/
theorem filterMap_decode_encode (ms : List Message) :
    (ms.map encodeMessage).filterMap decodeMessage = ms := by
  induction ms with
  | nil => rfl
  | cons m rest ih => simp [List.filterMap_cons, decode_encode, ih]

/-- Every element of an exported log passes the import shape check. -/
theorem all_isValid_encode (ms : List Message) :
    (ms.map encodeMessage).all isValidMessageJson = true := by
  induction ms with
  | nil => rfl
  | cons m rest ih => simp [isValid_encode, ih]

/-- The system-sender test on an exported message agrees with the typed one. -/
theorem jsonSenderIsSystem_encode (m : Message) :
    jsonSenderIsSystem (encodeMessage m) = (m.sender == Sender.system) := by
  obtain ⟨i, s, t, img⟩ := m
  cases img <;> cases s <;>
    simp [encodeMessage, jsonSenderIsSystem, getField, List.find?, senderToString]

/-- C7 counterexample: a log consisting of a single system message (for
example an error notice) is exportable — `handleDownloadChat` only refuses
the initial/cleared notices — but importing its export does not reproduce it:
the import's degenerate-array branch replaces it with the cleared-chat
notice, so the round trip is not the identity plus the loaded notice. -/
theorem chat_export_import_round_trip_counterexample :
    downloadWilling singleSystemLog = true ∧
    handleFileUpload singleSystemLog (encodeMessages singleSystemLog) "n1" "n2" ≠
      singleSystemLog ++
        [{ id := "n1", sender := Sender.system, text := loadedSystemMessage }] ∧
    handleFileUpload singleSystemLog (encodeMessages singleSystemLog) "n1" "n2" =
      [{ id := "n2", sender := Sender.system, text := clearedSystemMessage }] := by
  refine ⟨by decide, by decide, by decide⟩

/-- C7 (amended): for every message log the download operation is willing to
export, except logs consisting of a single system message, exporting the log
and importing the export yields exactly the original ordered message
sequence with the single appended "loaded" system notice. -/
theorem chat_export_import_round_trip (ms current : List Message) (noticeId clearedId : String)
    (hwill : downloadWilling ms = true)
    (hns : singleSystemHead ms = false) :
    handleFileUpload current (encodeMessages ms) noticeId clearedId =
      ms ++ [{ id := noticeId, sender := Sender.system, text := loadedSystemMessage }] := by
  cases ms with
  | nil => simp [downloadWilling] at hwill
  | cons m rest =>
    show handleFileUpload current (Json.arr ((m :: rest).map encodeMessage)) noticeId clearedId = _
    simp only [handleFileUpload]
    rw [all_isValid_encode]
    rw [if_pos rfl]
    rw [filterMap_decode_encode]
    have hcond : (((m :: rest).map encodeMessage).length > 0 &&
        !(((m :: rest).map encodeMessage).length == 1 &&
          (match ((m :: rest).map encodeMessage).head? with
            | some e => jsonSenderIsSystem e
            | none => false))) = true := by
      simp only [singleSystemHead, List.length_cons, List.head?_cons] at hns
      simp only [List.map_cons, List.length_cons, List.length_map, List.head?_cons,
        jsonSenderIsSystem_encode]
      simp only [hns]
      simp
    rw [hcond]
    rw [if_pos rfl]

/-- C7 witness: a two-message conversation round-trips to itself plus the
loaded notice. -/
theorem chat_export_import_round_trip_witness :
    handleFileUpload []
        (encodeMessages
          [{ id := "u1", sender := Sender.user, text := "hi",
             imageUrl := some "data:image/png;base64,AA" },
           { id := "a1", sender := Sender.ai, text := "hello" }]) "n1" "n2" =
      [{ id := "u1", sender := Sender.user, text := "hi",
         imageUrl := some "data:image/png;base64,AA" },
       { id := "a1", sender := Sender.ai, text := "hello" },
       { id := "n1", sender := Sender.system, text := loadedSystemMessage }] :=
  chat_export_import_round_trip _ _ "n1" "n2" (by decide) (by decide)

/-- C8 counterexample: the claim says the import accepts a document only if
every element's `imageUrl` is absent or a string; the shape check in the code
also accepts `imageUrl: null`, so a document with a null `imageUrl` is
accepted and fully loaded rather than rejected. -/
theorem import_shape_counterexample :
    getField nullImageFields "imageUrl" = some Json.null ∧
    isValidMessageJson nullImageElement = true ∧
    handleFileUpload [] (Json.arr [nullImageElement]) "n1" "n2" =
      [{ id := "x1", sender := Sender.user, text := "hi" },
       { id := "n1", sender := Sender.system, text := loadedSystemMessage }] := by
  refine ⟨rfl, by decide, by decide⟩

/-- C8 (amended): the import accepts a document only if it is an array whose
every element has a string `id`, a `sender` among user/ai/system, a string
`text`, and an `imageUrl` that is absent, `null`, or a string (the shape
checked by `isValidMessageJson`); any other document — including an array
with one violating element — is rejected wholesale and the existing message
log is left unchanged. -/
theorem import_reject_leaves_log_unchanged (doc : Json) (current : List Message)
    (noticeId clearedId : String) (h : importAccepted doc = false) :
    handleFileUpload current doc noticeId clearedId = current := by
  cases doc with
  | arr elems =>
    have h' : elems.all isValidMessageJson = false := by
      simpa [importAccepted] using h
    simp [handleFileUpload, h']
  | null => rfl
  | bool b => rfl
  | num n => rfl
  | str s => rfl
  | obj fields => rfl

/-- C8 witness: a malformed document (an array with an element whose `id` is
a number) leaves the current log unchanged. -/
theorem import_reject_leaves_log_unchanged_witness :
    handleFileUpload [{ id := "k1", sender := Sender.user, text := "kept" }]
        (Json.arr [Json.obj [("id", Json.num 3), ("sender", Json.str "user"),
                             ("text", Json.str "hi")]]) "n1" "n2" =
      [{ id := "k1", sender := Sender.user, text := "kept" }] :=
  import_reject_leaves_log_unchanged _ _ "n1" "n2" (by decide)

/-- With pairwise-distinct message ids, the id of the message at index `i` is
first found at index `i`. -/
theorem findIndexById_of_nodup (ms : List Message) (i : ℕ) (m : Message)
    (hm : ms[i]? = some m) (hnodup : (ms.map Message.id).Nodup) :
    findIndexById ms m.id = some i := by
  induction ms generalizing i with
  | nil => simp at hm
  | cons m0 rest ih =>
    rw [List.map_cons, List.nodup_cons] at hnodup
    rcases i with _ | i
    · rw [List.getElem?_cons_zero] at hm
      injection hm with hm
      subst hm
      simp [findIndexById]
    · rw [List.getElem?_cons_succ] at hm
      have hmem : m ∈ rest := by
        have hi : i < rest.length := by
          by_contra hlt
          rw [List.getElem?_eq_none (Nat.le_of_not_lt hlt)] at hm
          exact Option.noConfusion hm
        have := List.getElem?_eq_getElem hi
        rw [this] at hm
        injection hm with hm
        exact hm ▸ List.getElem_mem hi
      have hne : ¬(m0.id = m.id) := by
        intro he
        exact hnodup.1 (he ▸ List.mem_map_of_mem Message.id hmem)
      simp [findIndexById, hne, ih i hm hnodup.2]

/-- Replacing the first match of an id by a message carrying the same id
keeps it the first match, at the same index, in the truncated list. -/
theorem findIndexById_take_of_firstIndex (ms : List Message) (mid : String) (i : ℕ)
    (h : findIndexById ms mid = some i) (ed : Message) (hed : ed.id = mid) :
    findIndexById (ms.take i ++ [ed]) mid = some i := by
  induction ms generalizing i with
  | nil => simp [findIndexById] at h
  | cons m0 rest ih =>
    by_cases h0 : m0.id = mid
    · have hi : i = 0 := by
        simp [findIndexById, h0] at h
        omega
      subst hi
      simp [findIndexById, hed]
    · simp only [findIndexById, if_neg h0] at h
      cases hr : findIndexById rest mid with
      | none => rw [hr] at h; simp at h
      | some i' =>
        rw [hr] at h
        simp only [Option.map_some'] at h
        injection h with h
        subst h
        rw [List.take_succ_cons, List.cons_append]
        simp [findIndexById, h0, ih i' hr]

/-- The id of the settled message is the fresh id, whatever the outcome. -/
theorem aiOrErrorMessage_id (newId : String) (outcome : Except String String) :
    (aiOrErrorMessage newId outcome).id = newId := by
  cases outcome <;> rfl

/-- C9: performing edit-and-resend on the user message at index `i` (with
pairwise-distinct message ids and a fresh id for the settled message)
truncates the log to the messages before `i`, places the edited message at
index `i`, and appends exactly one settled message directly after it — an AI
message on success, a system error message on failure; no message from after
index `i` in the original log appears in the result. -/
theorem edit_and_resend_truncates (ms : List Message) (i : ℕ) (m : Message)
    (rawText : String) (imagePreview : Option String) (newId : String)
    (outcome : Except String String)
    (hm : ms[i]? = some m) (huser : m.sender = Sender.user)
    (hnodup : (ms.map Message.id).Nodup) (hfresh : newId ∉ ms.map Message.id) :
    editAndResend ms m.id rawText imagePreview newId outcome =
      ms.take i ++ [editedMessage m (jsTrim rawText) imagePreview,
                    aiOrErrorMessage newId outcome] ∧
    (∀ resp, outcome = Except.ok resp →
      (aiOrErrorMessage newId outcome).sender = Sender.ai) ∧
    (∀ err, outcome = Except.error err →
      (aiOrErrorMessage newId outcome).sender = Sender.system) ∧
    (∀ m' ∈ ms.drop (i + 1),
      m' ∉ editAndResend ms m.id rawText imagePreview newId outcome) := by
  have hfirst : findIndexById ms m.id = some i := findIndexById_of_nodup ms i m hm hnodup
  have hlen : i < ms.length := by
    by_contra hlt
    rw [List.getElem?_eq_none (Nat.le_of_not_lt hlt)] at hm
    exact Option.noConfusion hm
  have hmain : editAndResend ms m.id rawText imagePreview newId outcome =
      ms.take i ++ [editedMessage m (jsTrim rawText) imagePreview,
                    aiOrErrorMessage newId outcome] := by
    simp only [editAndResend, hfirst, hm]
    unfold truncateForEdit appendAfterEdit
    rw [findIndexById_take_of_firstIndex ms m.id i hfirst
      (editedMessage m (jsTrim rawText) imagePreview) rfl]
    have htake : (ms.take i ++ [editedMessage m (jsTrim rawText) imagePreview]).take (i + 1) =
        ms.take i ++ [editedMessage m (jsTrim rawText) imagePreview] := by
      apply List.take_of_length_le
      simp only [List.length_append, List.length_take, List.length_singleton]
      omega
    show (ms.take i ++ [editedMessage m (jsTrim rawText) imagePreview]).take (i + 1) ++
        [aiOrErrorMessage newId outcome] =
      ms.take i ++ [editedMessage m (jsTrim rawText) imagePreview, aiOrErrorMessage newId outcome]
    rw [htake, List.append_assoc]
    rfl
  refine ⟨hmain, fun resp hok => by rw [hok]; rfl, fun err herr => by rw [herr]; rfl, ?_⟩
  intro m' hm' hmem
  rw [hmain] at hmem
  have hnodup' : ((ms.take (i + 1)).map Message.id ++ (ms.drop (i + 1)).map Message.id).Nodup := by
    rw [← List.map_append, List.take_append_drop]
    exact hnodup
  have hdisj := List.disjoint_of_nodup_append hnodup'
  have hid' : m'.id ∈ (ms.drop (i + 1)).map Message.id := List.mem_map_of_mem Message.id hm'
  have hmmem : m ∈ ms.take (i + 1) := by
    have hg : (ms.take (i + 1))[i]? = some m := by
      rw [List.getElem?_take_of_lt (Nat.lt_succ_self i)]
      exact hm
    have hi : i < (ms.take (i + 1)).length := by
      simp [List.length_take]
      omega
    have := List.getElem?_eq_getElem hi
    rw [this] at hg
    injection hg with hg
    exact hg ▸ List.getElem_mem hi
  rcases List.mem_append.mp hmem with hmem | hmem
  · have : m' ∈ ms.take (i + 1) := by
      have hsub : ms.take i ⊆ ms.take (i + 1) := by
        rw [show ms.take i = (ms.take (i + 1)).take i by
          rw [List.take_take]
          congr 1
          omega]
        exact List.take_subset _ _
      exact hsub hmem
    exact hdisj (List.mem_map_of_mem Message.id this) hid'
  · rcases List.mem_cons.mp hmem with hmem | hmem
    · have hidm : m'.id = m.id := by rw [hmem]; rfl
      exact hdisj (hidm ▸ List.mem_map_of_mem Message.id hmmem) hid'
    · have hm'eq : m' = aiOrErrorMessage newId outcome := by simpa using hmem
      apply hfresh
      rw [← aiOrErrorMessage_id newId outcome, ← hm'eq]
      exact List.mem_map_of_mem Message.id (List.mem_of_mem_drop hm')

/-- C9 witness: editing the second user message of a four-message log and
succeeding truncates the two later messages and appends one AI reply. -/
theorem edit_and_resend_truncates_witness :
    editAndResend sampleEditLog
        (Message.mk "u2" Sender.user "second" none).id " edited " none "f1"
        (Except.ok "new reply") =
      sampleEditLog.take 2 ++
        [editedMessage (Message.mk "u2" Sender.user "second" none) (jsTrim " edited ") none,
         aiOrErrorMessage "f1" (Except.ok "new reply")] ∧
    (∀ resp, (Except.ok resp : Except String String) = Except.ok "new reply" →
      (aiOrErrorMessage "f1" (Except.ok "new reply")).sender = Sender.ai) ∧
    (∀ err, (Except.ok "new reply" : Except String String) = Except.error err →
      (aiOrErrorMessage "f1" (Except.ok "new reply")).sender = Sender.system) ∧
    (∀ m' ∈ sampleEditLog.drop (2 + 1),
      m' ∉ editAndResend sampleEditLog
        (Message.mk "u2" Sender.user "second" none).id " edited " none "f1"
        (Except.ok "new reply")) := by
  have h := edit_and_resend_truncates sampleEditLog 2
    (Message.mk "u2" Sender.user "second" none) " edited " none "f1"
    (Except.ok "new reply") (by decide) (by decide) (by decide) (by decide)
  exact ⟨h.1, fun resp _ => h.2.1 "new reply" rfl, fun err he => Except.noConfusion he, h.2.2.2⟩

end ModelVerse
